import Mathlib

/-!
Shallow embedding of the gopglite glue layer (Go, package main).

The repository drives a prebuilt PostgreSQL WASM binary (PGLite) through the
wazero WASI runtime.  The first-party code consists of:

  * `setupEnv`   — extract an embedded tar.gz image unless a marker file
                   `./tmp/pglite/base/PG_VERSION` exists, create the random
                   device shim `./dev/urandom` (128 random bytes), and read
                   the WASM blob `./tmp/pglite/bin/postgres.wasi`;
  * `NewPGLite`  — instantiate the module (mounting ./tmp at /tmp and ./dev
                   at /dev), then the two-call handshake `pg_initdb`,
                   `use_socketfile`;
  * `Query`      — write the null-terminated UTF-8 SQL text at memory offset
                   1 and call the exported function `interactive_one`;
  * `RunQueries` — split the input on "\n\n" and submit each segment whose
                   trimmed form is non-empty, stopping at the first error.

Host-side effects (the filesystem, the embedded archive's entry stream, the
random source, and the outcome of every call into the opaque WASM binary)
are modelled explicitly: the filesystem is an association list from
normalized paths (no leading "./") to entries, and the WASM side is an
oracle giving the instantiation outcome and the outcome of each exported
function call.  Calls into the module and memory writes are recorded as
events so that ordering claims can be stated.  Machine bytes are `Nat`
values below 256; overflow never arises in this code.
-/

/-- A byte, as stored in files and in the module's linear memory. -/
abbrev Byte := Nat

deriving instance DecidableEq for Except

/-- A filesystem entry: a directory, a regular file with its content, or a
symbolic link with its target (mirroring the three tar entry types the Go
code accepts). -/
inductive Entry where
  | dir
  | file (content : List Byte)
  | symlink (target : String)
deriving DecidableEq, Repr

/-- The host filesystem, as an association list from normalized paths to
entries.  Later `set`s are consed on the front; `get` finds the most recent
binding. -/
abbrev FS := List (String × Entry)

/-- Look a path up in the filesystem (most recent binding wins). -/
def FS.get : FS → String → Option Entry
  | [], _ => none
  | (q, e) :: rest, p => if q = p then some e else FS.get rest p

/-- Bind a path to an entry (shadowing any previous binding). -/
def FS.set (fs : FS) (p : String) (e : Entry) : FS := (p, e) :: fs

/-- Split a character list at every '/' (embeds Go's path component view;
`acc` holds the current component reversed). -/
def splitSlash : List Char → List Char → List String
  | [], acc => [String.mk acc.reverse]
  | '/' :: rest, acc => String.mk acc.reverse :: splitSlash rest []
  | c :: rest, acc => splitSlash rest (c :: acc)

/-- Join path components with '/'. -/
def joinSlash : List String → String
  | [] => ""
  | [p] => p
  | p :: q :: rest => p ++ "/" ++ joinSlash (q :: rest)

/-- All proper path prefixes of a path, shortest first, ending with the path
itself ("a/b/c" ↦ ["a", "a/b", "a/b/c"]); these are the directories Go's
`os.MkdirAll` creates. -/
def pathPrefixes (p : String) : List String :=
  let parts := splitSlash p.data []
  (List.range parts.length).map fun i => joinSlash (parts.take (i + 1))

/-- The parent directory of a path, `none` standing for "." (embeds Go's
`filepath.Dir` for the relative cleaned paths this code produces). -/
def dirName (p : String) : Option String :=
  let parts := splitSlash p.data []
  if parts.length ≤ 1 then none else some (joinSlash parts.dropLast)

/-- Normalize `filepath.Join("./", name)`: strip one leading "./".  The
archive names this code extracts are relative paths, so no further cleaning
applies. -/
def cleanDot (s : String) : String :=
  match s.data with
  | '.' :: '/' :: rest => String.mk rest
  | _ => s

/-- The errors the glue layer can produce or propagate.  `wrap label e`
embeds Go's `fmt.Errorf("label: %w", e)`. -/
inductive GoErr where
  | gzipNewReader
  | tarNext
  | mkdirFail (p : String)
  | createFail (p : String)
  | symlinkFail (p : String)
  | unknownTarType (flag : Byte) (name : String)
  | readFileFail (p : String)
  | randReadFail
  | wasmExitCode (code : Nat)
  | instantiateFail
  | callFail (fn : String)
  | wrap (label : String) (e : GoErr)
deriving DecidableEq, Repr

/-- One tar header together with the bytes `io.Copy` would stream for it.
`typeflag` values follow archive/tar: 48 = '0' regular, 50 = '2' symlink,
53 = '5' directory. -/
structure TarHeader where
  typeflag : Byte
  name : String
  linkname : String
  content : List Byte
deriving DecidableEq, Repr

/-- One step of the tar entry stream: a header, or a read error from
`tr.Next()`. -/
inductive TarItem where
  | ok (h : TarHeader)
  | readErr
deriving DecidableEq, Repr

/-- Create one directory (one step of `os.MkdirAll`): existing directories
are left alone, an existing non-directory is an error. -/
def mkdirOne (fs : FS) (p : String) : Except GoErr FS :=
  match fs.get p with
  | some .dir => .ok fs
  | some _ => .error (.mkdirFail p)
  | none => .ok (fs.set p .dir)

/-- Embed `os.MkdirAll`: create every prefix of the path as a directory. -/
def mkdirAll (fs : FS) (p : String) : Except GoErr FS :=
  (pathPrefixes p).foldlM mkdirOne fs

/-- Embed `os.Create` followed by writing `content`: truncating overwrite,
an error if the path is an existing directory. -/
def createFile (fs : FS) (p : String) (content : List Byte) : Except GoErr FS :=
  match fs.get p with
  | some .dir => .error (.createFail p)
  | _ => .ok (fs.set p (.file content))

/-- Embed `os.Symlink`: an error if the destination already exists. -/
def mkSymlink (fs : FS) (target dest : String) : Except GoErr FS :=
  match fs.get dest with
  | some _ => .error (.symlinkFail dest)
  | none => .ok (fs.set dest (.symlink target))

/-- Embed `os.ReadFile`: succeeds only on a regular file. -/
def readFileFS (fs : FS) (p : String) : Except GoErr (List Byte) :=
  match fs.get p with
  | some (.file c) => .ok c
  | _ => .error (.readFileFail p)

/-- Extract one tar item, following the `switch header.Typeflag` of the
source: directories via `MkdirAll`, regular files via `MkdirAll` of the
parent then `Create`/`Copy`, symlinks via `Symlink`; any other typeflag is
an error, as is a `tr.Next()` read error. -/
def extractItem (fs : FS) (item : TarItem) : Except GoErr FS :=
  match item with
  | .readErr => .error .tarNext
  | .ok h =>
    let dest := cleanDot h.name
    if h.typeflag = 53 then mkdirAll fs dest
    else if h.typeflag = 48 then
      match (match dirName dest with
             | none => .ok fs
             | some d => mkdirAll fs d : Except GoErr FS) with
      | .error e => .error e
      | .ok fs1 => createFile fs1 dest h.content
    else if h.typeflag = 50 then mkSymlink fs h.linkname dest
    else .error (.unknownTarType h.typeflag h.name)

/-- Extract a whole tar stream, stopping at the first error (the source's
`for { header, err := tr.Next(); ... }` loop). -/
def extractAll (fs : FS) (items : List TarItem) : Except GoErr FS :=
  items.foldlM extractItem fs

/-- The marker file whose presence skips extraction
(`./tmp/pglite/base/PG_VERSION`, normalized). -/
def markerPath : String := "tmp/pglite/base/PG_VERSION"

/-- The WASM blob read back at the end of `setupEnv`
(`./tmp/pglite/bin/postgres.wasi`, normalized). -/
def wasmPath : String := "tmp/pglite/bin/postgres.wasi"

/-- The host-side environment `setupEnv` consumes: whether
`gzip.NewReader` succeeds on the embedded blob, the tar entry stream it
yields, and the result of the single `rand.Read` of the 128-byte buffer
(`none` = read error; the crypto/rand contract fills the buffer entirely on
success, stated as a hypothesis where needed). -/
structure SetupEnv where
  gzipOk : Bool
  archive : List TarItem
  rand : Option (List Byte)

/-- What a `setupEnv` call produced: its Go return value (WASM blob or
error), the filesystem afterwards (on an error, the state at the start of
the failing phase), and whether the extraction branch was entered. -/
structure SetupResult where
  result : Except GoErr (List Byte)
  fs : FS
  extracted : Bool
deriving Repr

/-- The unconditional tail of `setupEnv`: `MkdirAll("./dev")`, create
`./dev/urandom`, fill it with the 128 bytes from `rand.Read`. -/
def setupDev (env : SetupEnv) (fs : FS) : Except GoErr FS :=
  match mkdirAll fs "dev" with
  | .error e => .error e
  | .ok fs1 =>
    match createFile fs1 "dev/urandom" [] with
    | .error e => .error e
    | .ok fs2 =>
      match env.rand with
      | none => .error .randReadFail
      | some bs => .ok (fs2.set "dev/urandom" (.file bs))

/-- Embed `setupEnv`: extract the archive only when `os.Stat` on the marker
file fails (here: the path is unbound), then unconditionally build the
`./dev/urandom` shim and read the WASM blob back. -/
def setupEnv (env : SetupEnv) (fs : FS) : SetupResult :=
  let markerPresent := (fs.get markerPath).isSome
  let ext : Except GoErr FS :=
    if markerPresent then .ok fs
    else if env.gzipOk then extractAll fs env.archive
    else .error .gzipNewReader
  match ext with
  | .error e => ⟨.error e, fs, !markerPresent⟩
  | .ok fs1 =>
    match setupDev env fs1 with
    | .error e => ⟨.error e, fs1, !markerPresent⟩
    | .ok fs2 => ⟨readFileFS fs2 wasmPath, fs2, !markerPresent⟩

/-- The module's linear memory, as its byte contents. -/
structure Mem where
  data : List Byte
deriving DecidableEq, Repr

/-- Embed wazero's `api.Memory.Write`: copy `bytes` in at `offset` and
report `true`, or report `false` and leave the memory untouched when the
range does not fit. -/
def Mem.write (m : Mem) (offset : Nat) (bytes : List Byte) : Bool × Mem :=
  if offset + bytes.length ≤ m.data.length then
    (true, ⟨m.data.take offset ++ bytes ++ m.data.drop (offset + bytes.length)⟩)
  else
    (false, m)

/-- UTF-8 encode one character (the byte layout Go's `[]byte(sql)`
conversion produces). -/
def utf8EncodeCharB (c : Char) : List Byte :=
  let n := c.toNat
  if n < 128 then [n]
  else if n < 2048 then [192 + n / 64, 128 + n % 64]
  else if n < 65536 then [224 + n / 4096, 128 + n / 64 % 64, 128 + n % 64]
  else [240 + n / 262144, 128 + n / 4096 % 64, 128 + n / 64 % 64, 128 + n % 64]

/-- The UTF-8 bytes of a string, i.e. Go's `[]byte(sql)`; its length is
Go's `len(sql)`. -/
def utf8Bytes (s : String) : List Byte :=
  (s.data.map utf8EncodeCharB).flatten

/-- Observable host-side events of the WASM layer: a memory write (with the
success flag wazero returned), a call of an exported function, and a
`runtime.Close`. -/
inductive Event where
  | memWrite (offset : Nat) (bytes : List Byte) (ok : Bool)
  | call (fn : String)
  | close
deriving DecidableEq, Repr

/-- The outcome of instantiating the module: success, a `sys.ExitError`
with the given exit code, or a failure of another kind. -/
inductive InstResult where
  | ok
  | exit (code : Nat)
  | failOther
deriving DecidableEq, Repr

/-- The oracle for the opaque WASM side: the instantiation outcome and, for
each call (numbered globally from 0) of an exported function, its return
values or its error. -/
structure WasmEnv where
  instResult : InstResult
  callRes : Nat → String → Except GoErr (List Nat)

/-- The embedded `PGLite` handle: the module's memory and how many exported
function calls have been made on it (the runtime, context and writers of
the Go struct are host resources with no observable state here beyond the
event trace). -/
structure PGLite where
  mem : Mem
  nCalls : Nat
deriving DecidableEq, Repr

/-- Call an exported function: consult the oracle at the current call index
and bump the index. -/
def callFn (wenv : WasmEnv) (p : PGLite) (fn : String) :
    Except GoErr (List Nat) × PGLite :=
  (wenv.callRes p.nCalls fn, { p with nCalls := p.nCalls + 1 })

/-- The guest mounts `NewPGLite` configures, as (host dir, guest dir)
pairs; `withDirMount` embeds wazero's `FSConfig.WithDirMount`. -/
def FSConfig.withDirMount (c : List (String × String)) (host guest : String) :
    List (String × String) :=
  c ++ [(host, guest)]

/-- The mount configuration the source builds:
`NewFSConfig().WithDirMount("./tmp", "/tmp").WithDirMount("./dev", "/dev")`. -/
def pgliteFSConfig : List (String × String) :=
  FSConfig.withDirMount (FSConfig.withDirMount [] "./tmp" "/tmp") "./dev" "/dev"

/-- What a `NewPGLite` call produced: its Go return value (`.ok p` for
`(p, nil)`, `.error e` for `(nil, e)`), the events it performed on the
module and runtime, and the mounts it configured. -/
structure NewResult where
  result : Except GoErr PGLite
  trace : List Event
  mounts : List (String × String)
deriving DecidableEq, Repr

/-- The two-call handshake of `NewPGLite`: `pg_initdb` then
`use_socketfile`, closing the runtime and surfacing the error if either
call fails. -/
def handshake (wenv : WasmEnv) (mem0 : Mem) : NewResult :=
  let p0 : PGLite := ⟨mem0, 0⟩
  match callFn wenv p0 "pg_initdb" with
  | (.error e, _) =>
    ⟨.error (.wrap "pg_initdb" e), [.call "pg_initdb", .close], pgliteFSConfig⟩
  | (.ok _, p1) =>
    match callFn wenv p1 "use_socketfile" with
    | (.error e, _) =>
      ⟨.error (.wrap "use_socketfile" e),
       [.call "pg_initdb", .call "use_socketfile", .close], pgliteFSConfig⟩
    | (.ok _, p2) =>
      ⟨.ok p2, [.call "pg_initdb", .call "use_socketfile"], pgliteFSConfig⟩

/-- Embed `NewPGLite`: run `setupEnv` (wrapping its error), instantiate the
module — a `sys.ExitError` with non-zero code or any other error closes the
runtime and is returned, while a `sys.ExitError` with code 0 falls through —
then perform the handshake.  `mem0` is the instantiated module's memory. -/
def newPGLite (senv : SetupEnv) (fs : FS) (wenv : WasmEnv) (mem0 : Mem) :
    NewResult :=
  match (setupEnv senv fs).result with
  | .error e => ⟨.error (.wrap "setupEnv" e), [], []⟩
  | .ok _ =>
    match wenv.instResult with
    | .exit code =>
      if code ≠ 0 then ⟨.error (.wasmExitCode code), [.close], pgliteFSConfig⟩
      else handshake wenv mem0
    | .failOther =>
      ⟨.error (.wrap "instantiate" .instantiateFail), [.close], pgliteFSConfig⟩
    | .ok => handshake wenv mem0

/-- What a `Query` (or `RunQueries`) call produced: the returned error (or
`none`), the handle afterwards, and the events performed. -/
structure QueryResult where
  result : Option GoErr
  p : PGLite
  trace : List Event
deriving DecidableEq, Repr

/-- Embed `Query`: write the UTF-8 SQL bytes plus one zero byte at memory
offset 1 (the write's success flag is discarded, as in the source), then
call `interactive_one` and return its error. -/
def Query (wenv : WasmEnv) (p : PGLite) (sql : String) : QueryResult :=
  let bytes := utf8Bytes sql ++ [0]
  let w := p.mem.write 1 bytes
  let p1 : PGLite := { p with mem := w.2 }
  let c := callFn wenv p1 "interactive_one"
  ⟨match c.1 with | .error e => some e | .ok _ => none,
   c.2,
   [.memWrite 1 bytes w.1, .call "interactive_one"]⟩

/-- Split a character stream at every non-overlapping "\n\n", left to
right (embeds Go's `strings.Split(input, "\n\n")`; `acc` holds the current
segment reversed). -/
def splitNN : List Char → List Char → List String
  | [], acc => [String.mk acc.reverse]
  | '\n' :: '\n' :: rest, acc => String.mk acc.reverse :: splitNN rest []
  | c :: rest, acc => splitNN rest (c :: acc)

/-- Whether a character is whitespace for Go's `strings.TrimSpace`
(unicode.IsSpace: the Unicode White_Space property). -/
def goIsSpace (c : Char) : Bool :=
  c = ' ' || c = '\t' || c = '\n' || c = Char.ofNat 11 || c = Char.ofNat 12 ||
  c = '\r' || c = Char.ofNat 133 || c = Char.ofNat 160 ||
  c = Char.ofNat 5760 || (8192 ≤ c.toNat && c.toNat ≤ 8202) ||
  c = Char.ofNat 8232 || c = Char.ofNat 8233 || c = Char.ofNat 8239 ||
  c = Char.ofNat 8287 || c = Char.ofNat 12288

/-- Embed Go's `strings.TrimSpace`. -/
def trimSpace (s : String) : String :=
  String.mk (((s.data.dropWhile goIsSpace).reverse.dropWhile goIsSpace).reverse)

/-- The loop body of `RunQueries` over the list of segments: skip segments
whose trimmed form is empty, run `Query` on the others in order, and stop
at the first error. -/
def runSegs (wenv : WasmEnv) (p : PGLite) : List String → QueryResult
  | [] => ⟨none, p, []⟩
  | seg :: rest =>
    if trimSpace seg = "" then runSegs wenv p rest
    else
      match Query wenv p seg with
      | ⟨some e, p1, tr⟩ => ⟨some e, p1, tr⟩
      | ⟨none, p1, tr⟩ =>
        let r := runSegs wenv p1 rest
        ⟨r.result, r.p, tr ++ r.trace⟩

/-- Embed `RunQueries`: split the input on "\n\n" and run the segment
loop. -/
def RunQueries (wenv : WasmEnv) (p : PGLite) (input : String) : QueryResult :=
  runSegs wenv p (splitNN input.data [])

/-- Run `Query` on each element of a list in order, stopping at the first
error (the behaviour the specification ascribes to `RunQueries` on the
already-filtered segment list; compared against `RunQueries` itself). -/
def runListSpec (wenv : WasmEnv) (p : PGLite) : List String → QueryResult
  | [] => ⟨none, p, []⟩
  | seg :: rest =>
    match Query wenv p seg with
    | ⟨some e, p1, tr⟩ => ⟨some e, p1, tr⟩
    | ⟨none, p1, tr⟩ =>
      let r := runListSpec wenv p1 rest
      ⟨r.result, r.p, tr ++ r.trace⟩

/-- A whole session: `NewPGLite` followed, when it succeeded, by `Query`
calls for each SQL string in turn (stopping at the first error, as every
caller in the repository does); the value is the full event trace. -/
def querySeq (wenv : WasmEnv) (p : PGLite) : List String → List Event
  | [] => []
  | sql :: rest =>
    match Query wenv p sql with
    | ⟨some _, _, tr⟩ => tr
    | ⟨none, p1, tr⟩ => tr ++ querySeq wenv p1 rest

/-- The event trace of a session: the `NewPGLite` events, then the query
events when construction succeeded. -/
def sessionTrace (senv : SetupEnv) (fs : FS) (wenv : WasmEnv) (mem0 : Mem)
    (sqls : List String) : List Event :=
  match (newPGLite senv fs wenv mem0).result with
  | .error _ => (newPGLite senv fs wenv mem0).trace
  | .ok p => (newPGLite senv fs wenv mem0).trace ++ querySeq wenv p sqls

/-- A concrete WASM oracle on which every call succeeds. -/
def wenvOk : WasmEnv := ⟨.ok, fun _ _ => .ok []⟩

/-- A concrete host environment on which `setupEnv` succeeds. -/
def senvOk : SetupEnv := ⟨true, [], some (List.replicate 128 7)⟩

/-- A concrete filesystem holding the marker file and the WASM blob. -/
def fsOk : FS := [(markerPath, Entry.file [53]), (wasmPath, Entry.file [9])]

/-! ## Helper lemmas -/

theorem FS.get_set_self (fs : FS) (p : String) (e : Entry) :
    (fs.set p e).get p = some e := by
  simp [FS.set, FS.get]

theorem FS.get_set_ne (fs : FS) (p q : String) (e : Entry) (h : q ≠ p) :
    (fs.set q e).get p = fs.get p := by
  simp [FS.set, FS.get, h]

theorem createFile_ok {fs fs2 : FS} {p : String} {c : List Byte}
    (h : createFile fs p c = .ok fs2) : fs2 = fs.set p (.file c) := by
  unfold createFile at h
  split at h
  · cases h
  · exact (Except.ok.inj h).symm

theorem mkdirAll_dev_ok {fs fs1 : FS} (h : mkdirAll fs "dev" = .ok fs1) :
    fs1 = fs ∨ fs1 = fs.set "dev" Entry.dir := by
  have e : mkdirAll fs "dev" = mkdirOne fs "dev" >>= fun s => pure s := rfl
  rw [e, bind_pure] at h
  unfold mkdirOne at h
  split at h
  · exact Or.inl (Except.ok.inj h).symm
  · cases h
  · exact Or.inr (Except.ok.inj h).symm

theorem setupDev_ok_shape {env : SetupEnv} {fs fs2 : FS}
    (h : setupDev env fs = .ok fs2) :
    ∃ fs1 bs, (fs1 = fs ∨ fs1 = fs.set "dev" Entry.dir) ∧ env.rand = some bs ∧
      fs2 = (fs1.set "dev/urandom" (.file [])).set "dev/urandom" (.file bs) := by
  unfold setupDev at h
  split at h
  · cases h
  rename_i fs1 hma
  split at h
  · cases h
  rename_i fs1b hcf
  split at h
  · cases h
  rename_i bs hr
  exact ⟨fs1, bs, mkdirAll_dev_ok hma, hr, by
    rw [← Except.ok.inj h, createFile_ok hcf]⟩

theorem setupDev_frame {env : SetupEnv} {fs fs2 : FS}
    (h : setupDev env fs = .ok fs2) (p : String)
    (h1 : p ≠ "dev") (h2 : p ≠ "dev/urandom") : fs2.get p = fs.get p := by
  obtain ⟨fs1, bs, hfs1, _, hshape⟩ := setupDev_ok_shape h
  subst hshape
  rw [FS.get_set_ne _ _ _ _ (Ne.symm h2), FS.get_set_ne _ _ _ _ (Ne.symm h2)]
  rcases hfs1 with rfl | rfl
  · rfl
  · exact FS.get_set_ne _ _ _ _ (Ne.symm h1)

theorem setupDev_urandom {env : SetupEnv} {fs fs2 : FS}
    (h : setupDev env fs = .ok fs2) :
    ∃ bs, env.rand = some bs ∧ fs2.get "dev/urandom" = some (.file bs) := by
  obtain ⟨fs1, bs, _, hr, hshape⟩ := setupDev_ok_shape h
  exact ⟨bs, hr, by rw [hshape, FS.get_set_self]⟩

theorem setupEnv_eq (senv : SetupEnv) (fs : FS) :
    setupEnv senv fs =
      match (if (fs.get markerPath).isSome then Except.ok fs
             else if senv.gzipOk then extractAll fs senv.archive
             else .error .gzipNewReader : Except GoErr FS) with
      | .error e => ⟨.error e, fs, !(fs.get markerPath).isSome⟩
      | .ok fs1 =>
        match setupDev senv fs1 with
        | .error e => ⟨.error e, fs1, !(fs.get markerPath).isSome⟩
        | .ok fs2 => ⟨readFileFS fs2 wasmPath, fs2, !(fs.get markerPath).isSome⟩ :=
  rfl

theorem setupEnv_extracted (senv : SetupEnv) (fs : FS) :
    (setupEnv senv fs).extracted = !(fs.get markerPath).isSome := by
  rw [setupEnv_eq]
  split
  · rfl
  · split <;> rfl

theorem setupEnv_marker (senv : SetupEnv) (fs : FS)
    (hmk : (fs.get markerPath).isSome = true) :
    setupEnv senv fs =
      match setupDev senv fs with
      | .error e => ⟨.error e, fs, false⟩
      | .ok fs2 => ⟨readFileFS fs2 wasmPath, fs2, false⟩ := by
  rw [setupEnv_eq, if_pos hmk, hmk]
  rfl

theorem setupEnv_ok_dev {senv : SetupEnv} {fs : FS} {b : List Byte}
    (hok : (setupEnv senv fs).result = .ok b) :
    ∃ fs1, setupDev senv fs1 = .ok ((setupEnv senv fs).fs) := by
  rw [setupEnv_eq] at hok ⊢
  split at hok
  · cases hok
  rename_i fs1 heq
  split at hok
  · cases hok
  rename_i fs2 heq2
  exact ⟨fs1, heq2⟩

theorem handshake_mounts (wenv : WasmEnv) (mem0 : Mem) :
    (handshake wenv mem0).mounts = pgliteFSConfig := by
  cases hc : wenv.callRes 0 "pg_initdb" with
  | error e => simp [handshake, callFn, hc]
  | ok v =>
    cases hc2 : wenv.callRes 1 "use_socketfile" with
    | error e => simp [handshake, callFn, hc, hc2]
    | ok v2 => simp [handshake, callFn, hc, hc2]

theorem newPGLite_setup_err {senv : SetupEnv} {fs : FS} {e : GoErr}
    (wenv : WasmEnv) (mem0 : Mem) (hs : (setupEnv senv fs).result = .error e) :
    newPGLite senv fs wenv mem0 = ⟨.error (.wrap "setupEnv" e), [], []⟩ := by
  unfold newPGLite
  rw [hs]

theorem newPGLite_proceeds {senv : SetupEnv} {fs : FS} {wenv : WasmEnv}
    {b : List Byte} (mem0 : Mem) (hok : (setupEnv senv fs).result = .ok b)
    (hinst : wenv.instResult = .ok ∨ wenv.instResult = .exit 0) :
    newPGLite senv fs wenv mem0 = handshake wenv mem0 := by
  unfold newPGLite
  rw [hok]
  rcases hinst with h | h
  · rw [h]
  · rw [h]
    rfl

theorem newPGLite_exit {senv : SetupEnv} {fs : FS} {wenv : WasmEnv}
    {b : List Byte} {c : Nat} (mem0 : Mem)
    (hok : (setupEnv senv fs).result = .ok b)
    (hinst : wenv.instResult = .exit c) (hc : c ≠ 0) :
    newPGLite senv fs wenv mem0 =
      ⟨.error (.wasmExitCode c), [.close], pgliteFSConfig⟩ := by
  unfold newPGLite
  rw [hok, hinst]
  simp [hc]

theorem newPGLite_instFail {senv : SetupEnv} {fs : FS} {wenv : WasmEnv}
    {b : List Byte} (mem0 : Mem) (hok : (setupEnv senv fs).result = .ok b)
    (hinst : wenv.instResult = .failOther) :
    newPGLite senv fs wenv mem0 =
      ⟨.error (.wrap "instantiate" .instantiateFail), [.close],
       pgliteFSConfig⟩ := by
  unfold newPGLite
  rw [hok, hinst]

theorem handshake_initdb_err {wenv : WasmEnv} {e : GoErr} (mem0 : Mem)
    (h : wenv.callRes 0 "pg_initdb" = .error e) :
    (handshake wenv mem0).result = .error (.wrap "pg_initdb" e) := by
  simp [handshake, callFn, h]

theorem handshake_sock_err {wenv : WasmEnv} {e : GoErr} {v : List Nat}
    (mem0 : Mem) (h1 : wenv.callRes 0 "pg_initdb" = .ok v)
    (h2 : wenv.callRes 1 "use_socketfile" = .error e) :
    (handshake wenv mem0).result = .error (.wrap "use_socketfile" e) := by
  simp [handshake, callFn, h1, h2]

theorem handshake_ok_trace {wenv : WasmEnv} {mem0 : Mem} {q : PGLite}
    (h : (handshake wenv mem0).result = .ok q) :
    (handshake wenv mem0).trace =
      [.call "pg_initdb", .call "use_socketfile"] := by
  cases hc : wenv.callRes 0 "pg_initdb" with
  | error e => simp [handshake, callFn, hc] at h
  | ok v =>
    cases hc2 : wenv.callRes 1 "use_socketfile" with
    | error e => simp [handshake, callFn, hc, hc2] at h
    | ok v2 => simp [handshake, callFn, hc, hc2]

theorem handshake_trace_head (wenv : WasmEnv) (mem0 : Mem) :
    (handshake wenv mem0).trace.get? 0 = some (.call "pg_initdb") := by
  cases hc : wenv.callRes 0 "pg_initdb" with
  | error e => simp [handshake, callFn, hc]
  | ok v =>
    cases hc2 : wenv.callRes 1 "use_socketfile" with
    | error e => simp [handshake, callFn, hc, hc2]
    | ok v2 => simp [handshake, callFn, hc, hc2]

theorem handshake_no_exitcode (wenv : WasmEnv) (mem0 : Mem) (c : Nat) :
    (handshake wenv mem0).result ≠ .error (.wasmExitCode c) := by
  cases hc : wenv.callRes 0 "pg_initdb" with
  | error e => simp [handshake, callFn, hc]
  | ok v =>
    cases hc2 : wenv.callRes 1 "use_socketfile" with
    | error e => simp [handshake, callFn, hc, hc2]
    | ok v2 => simp [handshake, callFn, hc, hc2]

/-! ## Claim theorems -/

/-- C3: `setupEnv` extracts the embedded archive only when the marker file
`./tmp/pglite/base/PG_VERSION` is absent.  When the marker is present the
extraction branch is not entered (the result does not depend on the archive
or on the gzip reader at all), and the call leaves every path other than the
`./dev` shim paths unchanged, so re-running `setupEnv` once the marker
exists leaves the extracted tree as it was; when the marker is absent the
extraction branch is entered. -/
theorem spec_c3 (senv senv2 : SetupEnv) (fs : FS)
    (hmk : (fs.get markerPath).isSome = true) (hr : senv.rand = senv2.rand) :
    (setupEnv senv fs).extracted = false ∧
    setupEnv senv fs = setupEnv senv2 fs ∧
    (∀ p, p ≠ "dev" → p ≠ "dev/urandom" →
      (setupEnv senv fs).fs.get p = fs.get p) ∧
    (∀ senv3 : SetupEnv, ∀ fs3 : FS, (fs3.get markerPath).isSome = false →
      (setupEnv senv3 fs3).extracted = true) := by
  have hsd : setupDev senv fs = setupDev senv2 fs := by
    unfold setupDev; rw [hr]
  refine ⟨?_, ?_, ?_, ?_⟩
  · rw [setupEnv_extracted, hmk]; rfl
  · rw [setupEnv_marker senv fs hmk, setupEnv_marker senv2 fs hmk, hsd]
  · intro p h1 h2
    rw [setupEnv_marker senv fs hmk]
    cases hsd2 : setupDev senv fs with
    | error e => rfl
    | ok fs2 => exact setupDev_frame hsd2 p h1 h2
  · intro senv3 fs3 hmk3
    rw [setupEnv_extracted, hmk3]; rfl

/-- C3 witness: on a concrete filesystem that holds the marker file,
`setupEnv` reports no extraction, agrees with a run whose archive is
garbage and whose gzip reader fails, and leaves the marker file unchanged;
on the empty filesystem the extraction branch is entered. -/
theorem spec_c3_witness :
    (setupEnv senvOk fsOk).extracted = false ∧
    setupEnv senvOk fsOk = setupEnv ⟨false, [TarItem.readErr], senvOk.rand⟩ fsOk ∧
    (setupEnv senvOk fsOk).fs.get markerPath = fsOk.get markerPath ∧
    (setupEnv senvOk ([] : FS)).extracted = true := by
  obtain ⟨h1, h2, h3, h4⟩ :=
    spec_c3 senvOk ⟨false, [TarItem.readErr], senvOk.rand⟩ fsOk (by decide) rfl
  exact ⟨h1, h2, h3 markerPath (by decide) (by decide), h4 senvOk [] (by decide)⟩

/-- C6: whenever `setupEnv` fails, `NewPGLite` returns a nil handle and a
non-nil error wrapping the underlying failure; and each listed failure mode
is indeed an error of the environment setup — a `tr.Next()` read error, a
tar entry whose type is not directory, regular file or symlink, and a
failing gzip reader when extraction is attempted. -/
theorem spec_c6 (senv : SetupEnv) (fs : FS) (wenv : WasmEnv) (mem0 : Mem)
    (e : GoErr) (hs : (setupEnv senv fs).result = .error e) :
    (newPGLite senv fs wenv mem0).result = .error (.wrap "setupEnv" e) ∧
    (∀ fs2 : FS, extractItem fs2 .readErr = .error .tarNext) ∧
    (∀ fs2 : FS, ∀ h : TarHeader, h.typeflag ≠ 48 → h.typeflag ≠ 50 →
      h.typeflag ≠ 53 →
      extractItem fs2 (.ok h) = .error (.unknownTarType h.typeflag h.name)) ∧
    (∀ senv2 : SetupEnv, ∀ fs3 : FS, (fs3.get markerPath).isSome = false →
      senv2.gzipOk = false →
      (setupEnv senv2 fs3).result = .error .gzipNewReader) := by
  refine ⟨?_, fun fs2 => rfl, ?_, ?_⟩
  · unfold newPGLite
    rw [hs]
  · intro fs2 h h48 h50 h53
    simp only [extractItem]
    rw [if_neg h53, if_neg h48, if_neg h50]
  · intro senv2 fs3 hmk3 hgz
    rw [setupEnv_eq, hmk3, hgz]
    rfl

/-- C6 witness: with an absent marker and a failing gzip reader, `setupEnv`
fails and `NewPGLite` surfaces the wrapped error. -/
theorem spec_c6_witness :
    (newPGLite ⟨false, [], none⟩ [] wenvOk ⟨[]⟩).result =
      .error (.wrap "setupEnv" .gzipNewReader) ∧
    extractItem [] (.ok ⟨57, "x", "", []⟩) = .error (.unknownTarType 57 "x") := by
  obtain ⟨h1, _, h3, _⟩ :=
    spec_c6 ⟨false, [], none⟩ [] wenvOk ⟨[]⟩ .gzipNewReader (by decide)
  exact ⟨h1, h3 [] ⟨57, "x", "", []⟩ (by decide) (by decide) (by decide)⟩

/-- C7: every `setupEnv` call that completes, whether or not the extraction
branch ran, leaves `./dev/urandom` holding exactly the 128 freshly read
random bytes (the crypto/rand contract that a successful `Read` fills the
buffer is the hypothesis `hrand`); and `NewPGLite` configures the mounts
`./tmp` ↦ `/tmp` and `./dev` ↦ `/dev` for the module. -/
theorem spec_c7 (senv : SetupEnv) (fs : FS) (wenv : WasmEnv) (mem0 : Mem)
    (b : List Byte) (hok : (setupEnv senv fs).result = .ok b)
    (hrand : ∀ bs, senv.rand = some bs → bs.length = 128) :
    (∃ bs, senv.rand = some bs ∧ bs.length = 128 ∧
      (setupEnv senv fs).fs.get "dev/urandom" = some (.file bs)) ∧
    pgliteFSConfig = [("./tmp", "/tmp"), ("./dev", "/dev")] ∧
    (newPGLite senv fs wenv mem0).mounts = pgliteFSConfig := by
  refine ⟨?_, rfl, ?_⟩
  · obtain ⟨fs1, hsd⟩ := setupEnv_ok_dev hok
    obtain ⟨bs, hr, hu⟩ := setupDev_urandom hsd
    exact ⟨bs, hr, hrand bs hr, hu⟩
  · unfold newPGLite
    rw [hok]
    cases wenv.instResult with
    | ok => exact handshake_mounts wenv mem0
    | exit code =>
      by_cases hc : code = 0
      · subst hc
        exact handshake_mounts wenv mem0
      · simp [hc]
    | failOther => rfl

set_option maxRecDepth 8192 in
/-- C7 witness: on concrete environments, `setupEnv` leaves 128 bytes in
`./dev/urandom` and `NewPGLite` mounts ./tmp and ./dev. -/
theorem spec_c7_witness :
    (∃ bs, senvOk.rand = some bs ∧ bs.length = 128 ∧
      (setupEnv senvOk fsOk).fs.get "dev/urandom" = some (.file bs)) ∧
    (newPGLite senvOk fsOk wenvOk ⟨[]⟩).mounts =
      [("./tmp", "/tmp"), ("./dev", "/dev")] := by
  obtain ⟨h1, h2, h3⟩ :=
    spec_c7 senvOk fsOk wenvOk ⟨[]⟩ [9] (by decide)
      (fun bs hbs => by
        rw [show bs = List.replicate 128 7 from (Option.some.inj hbs).symm]
        decide)
  exact ⟨h1, by rw [h3, h2]⟩

/-- C2: a `sys.ExitError` with non-zero exit code during instantiation makes
`NewPGLite` return a nil handle and an error reporting the exit code (with
the runtime closed); a failure of `pg_initdb` or `use_socketfile` is
surfaced as a non-nil error from `NewPGLite`; and a failure of
`interactive_one` is surfaced as a non-nil error from `Query`. -/
theorem spec_c2 (senv : SetupEnv) (fs : FS) (wenv : WasmEnv) (mem0 : Mem)
    (sql : String) (q : PGLite) (c : Nat) (e : GoErr) (b : List Byte) :
    ((setupEnv senv fs).result = .ok b → wenv.instResult = .exit c → c ≠ 0 →
      (newPGLite senv fs wenv mem0).result = .error (.wasmExitCode c) ∧
      .close ∈ (newPGLite senv fs wenv mem0).trace) ∧
    ((setupEnv senv fs).result = .ok b →
      (wenv.instResult = .ok ∨ wenv.instResult = .exit 0) →
      wenv.callRes 0 "pg_initdb" = .error e →
      (newPGLite senv fs wenv mem0).result = .error (.wrap "pg_initdb" e)) ∧
    ((setupEnv senv fs).result = .ok b →
      (wenv.instResult = .ok ∨ wenv.instResult = .exit 0) →
      (∃ v, wenv.callRes 0 "pg_initdb" = .ok v) →
      wenv.callRes 1 "use_socketfile" = .error e →
      (newPGLite senv fs wenv mem0).result =
        .error (.wrap "use_socketfile" e)) ∧
    (wenv.callRes q.nCalls "interactive_one" = .error e →
      (Query wenv q sql).result = some e) := by
  refine ⟨?_, ?_, ?_, ?_⟩
  · intro hok hinst hc
    rw [newPGLite_exit mem0 hok hinst hc]
    exact ⟨rfl, by simp⟩
  · intro hok hinst hcall
    rw [newPGLite_proceeds mem0 hok hinst]
    exact handshake_initdb_err mem0 hcall
  · intro hok hinst hv hcall
    obtain ⟨v, hv⟩ := hv
    rw [newPGLite_proceeds mem0 hok hinst]
    exact handshake_sock_err mem0 hv hcall
  · intro hcall
    simp [Query, callFn, hcall]

set_option maxRecDepth 8192 in
/-- C2 witness: concrete oracles exhibiting each surfaced failure. -/
theorem spec_c2_witness :
    (newPGLite senvOk fsOk ⟨.exit 7, fun _ _ => .ok []⟩ ⟨[]⟩).result =
      .error (.wasmExitCode 7) ∧
    (newPGLite senvOk fsOk
        ⟨.ok, fun _ fn => if fn = "pg_initdb"
          then .error (.callFail "pg_initdb") else .ok []⟩ ⟨[]⟩).result =
      .error (.wrap "pg_initdb" (.callFail "pg_initdb")) ∧
    (newPGLite senvOk fsOk
        ⟨.ok, fun _ fn => if fn = "use_socketfile"
          then .error (.callFail "use_socketfile") else .ok []⟩ ⟨[]⟩).result =
      .error (.wrap "use_socketfile" (.callFail "use_socketfile")) ∧
    (Query ⟨.ok, fun _ _ => .error (.callFail "interactive_one")⟩
        ⟨⟨[]⟩, 0⟩ "x").result = some (.callFail "interactive_one") := by
  refine ⟨?_, ?_, ?_, ?_⟩
  · exact ((spec_c2 senvOk fsOk ⟨.exit 7, fun _ _ => .ok []⟩ ⟨[]⟩ "x"
      ⟨⟨[]⟩, 0⟩ 7 .gzipNewReader [9]).1 (by decide) rfl (by decide)).1
  · exact (spec_c2 senvOk fsOk
      ⟨.ok, fun _ fn => if fn = "pg_initdb"
        then .error (.callFail "pg_initdb") else .ok []⟩ ⟨[]⟩ "x"
      ⟨⟨[]⟩, 0⟩ 0 (.callFail "pg_initdb") [9]).2.1 (by decide) (Or.inl rfl)
      (by decide)
  · exact (spec_c2 senvOk fsOk
      ⟨.ok, fun _ fn => if fn = "use_socketfile"
        then .error (.callFail "use_socketfile") else .ok []⟩ ⟨[]⟩ "x"
      ⟨⟨[]⟩, 0⟩ 0 (.callFail "use_socketfile") [9]).2.2.1 (by decide)
      (Or.inl rfl) ⟨[], by decide⟩ (by decide)
  · exact (spec_c2 senvOk fsOk
      ⟨.ok, fun _ _ => .error (.callFail "interactive_one")⟩ ⟨[]⟩ "x"
      ⟨⟨[]⟩, 0⟩ 0 (.callFail "interactive_one") [9]).2.2.2 (by decide)

/-- C4: in every successful `NewPGLite` run the events are exactly the two
handshake calls `pg_initdb` then `use_socketfile`, in that order, both
before `NewPGLite` returns; and in the whole session trace every
`interactive_one` invocation occurs strictly after those two positions. -/
theorem spec_c4 (senv : SetupEnv) (fs : FS) (wenv : WasmEnv) (mem0 : Mem)
    (sqls : List String) (q : PGLite)
    (h : (newPGLite senv fs wenv mem0).result = .ok q) :
    (newPGLite senv fs wenv mem0).trace =
      [.call "pg_initdb", .call "use_socketfile"] ∧
    (sessionTrace senv fs wenv mem0 sqls).get? 0 =
      some (.call "pg_initdb") ∧
    (sessionTrace senv fs wenv mem0 sqls).get? 1 =
      some (.call "use_socketfile") ∧
    (∀ k, (sessionTrace senv fs wenv mem0 sqls).get? k =
      some (.call "interactive_one") → 2 ≤ k) := by
  have hhs : newPGLite senv fs wenv mem0 = handshake wenv mem0 := by
    cases hs : (setupEnv senv fs).result with
    | error e => rw [newPGLite_setup_err wenv mem0 hs] at h; cases h
    | ok b =>
      cases hinst : wenv.instResult with
      | ok => exact newPGLite_proceeds mem0 hs (Or.inl hinst)
      | failOther => rw [newPGLite_instFail mem0 hs hinst] at h; cases h
      | exit c =>
        by_cases hc : c = 0
        · subst hc; exact newPGLite_proceeds mem0 hs (Or.inr hinst)
        · rw [newPGLite_exit mem0 hs hinst hc] at h; cases h
  have htr : (newPGLite senv fs wenv mem0).trace =
      [.call "pg_initdb", .call "use_socketfile"] := by
    rw [hhs]
    exact handshake_ok_trace (hhs ▸ h)
  have hst : sessionTrace senv fs wenv mem0 sqls =
      .call "pg_initdb" :: .call "use_socketfile" ::
        querySeq wenv q sqls := by
    unfold sessionTrace
    rw [h, htr]
    rfl
  refine ⟨htr, by rw [hst]; rfl, by rw [hst]; rfl, ?_⟩
  intro k hk
  match k with
  | 0 =>
    rw [hst] at hk
    exact absurd (Event.call.inj (Option.some.inj hk)) (by decide)
  | 1 =>
    rw [hst] at hk
    exact absurd (Event.call.inj (Option.some.inj hk)) (by decide)
  | (n + 2) => omega

set_option maxRecDepth 8192 in
/-- C4 witness: a concrete successful construction whose trace is the
handshake, with the session trace starting with it. -/
theorem spec_c4_witness :
    (newPGLite senvOk fsOk wenvOk ⟨[]⟩).trace =
      [.call "pg_initdb", .call "use_socketfile"] ∧
    (sessionTrace senvOk fsOk wenvOk ⟨[]⟩ ["a"]).get? 0 =
      some (.call "pg_initdb") ∧
    (sessionTrace senvOk fsOk wenvOk ⟨[]⟩ ["a"]).get? 1 =
      some (.call "use_socketfile") := by
  obtain ⟨h1, h2, h3, _⟩ :=
    spec_c4 senvOk fsOk wenvOk ⟨[]⟩ ["a"] ⟨⟨[]⟩, 2⟩ (by decide)
  exact ⟨h1, h2, h3⟩

/-- C10: when instantiation ends in a `sys.ExitError` with exit code zero,
`NewPGLite` does not treat it as a failure: the run is identical to one
whose instantiation succeeded, its first action afterwards is the
`pg_initdb` call, and no exit-code error is returned. -/
theorem spec_c10 (senv : SetupEnv) (fs : FS)
    (cr : Nat → String → Except GoErr (List Nat)) (mem0 : Mem)
    (b : List Byte) (hok : (setupEnv senv fs).result = .ok b) :
    newPGLite senv fs ⟨.exit 0, cr⟩ mem0 = newPGLite senv fs ⟨.ok, cr⟩ mem0 ∧
    (newPGLite senv fs ⟨.exit 0, cr⟩ mem0).trace.get? 0 =
      some (.call "pg_initdb") ∧
    (newPGLite senv fs ⟨.exit 0, cr⟩ mem0).result ≠
      .error (.wasmExitCode 0) := by
  have h1 : newPGLite senv fs ⟨.exit 0, cr⟩ mem0 =
      handshake ⟨.exit 0, cr⟩ mem0 :=
    newPGLite_proceeds mem0 hok (Or.inr rfl)
  have h2 : newPGLite senv fs ⟨.ok, cr⟩ mem0 = handshake ⟨.ok, cr⟩ mem0 :=
    newPGLite_proceeds mem0 hok (Or.inl rfl)
  have hh : handshake ⟨.exit 0, cr⟩ mem0 = handshake ⟨.ok, cr⟩ mem0 := rfl
  refine ⟨by rw [h1, h2, hh], ?_, ?_⟩
  · rw [h1]; exact handshake_trace_head _ mem0
  · rw [h1]; exact handshake_no_exitcode _ mem0 0

set_option maxRecDepth 8192 in
/-- C10 witness: a concrete run whose instantiation exits with code 0
behaves exactly like a successful instantiation. -/
theorem spec_c10_witness :
    newPGLite senvOk fsOk ⟨.exit 0, fun _ _ => .ok []⟩ ⟨[]⟩ =
      newPGLite senvOk fsOk ⟨.ok, fun _ _ => .ok []⟩ ⟨[]⟩ ∧
    (newPGLite senvOk fsOk ⟨.exit 0, fun _ _ => .ok []⟩ ⟨[]⟩).trace.get? 0 =
      some (.call "pg_initdb") := by
  obtain ⟨h1, h2, _⟩ :=
    spec_c10 senvOk fsOk (fun _ _ => .ok []) ⟨[]⟩ [9] (by decide)
  exact ⟨h1, h2⟩
theorem Mem.write_fits {m : Mem} {off : Nat} {bs : List Byte}
    (h : off + bs.length ≤ m.data.length) :
    m.write off bs =
      (true, ⟨m.data.take off ++ bs ++ m.data.drop (off + bs.length)⟩) := by
  unfold Mem.write
  rw [if_pos h]

theorem Mem.write_nofit {m : Mem} {off : Nat} {bs : List Byte}
    (h : m.data.length < off + bs.length) :
    m.write off bs = (false, m) := by
  unfold Mem.write
  rw [if_neg (by omega)]

theorem write_index (d bs : List Byte) (k i : Nat) (h : k + bs.length ≤ d.length) :
    (d.take k ++ bs ++ d.drop (k + bs.length))[i]? =
      if i < k then d[i]?
      else if i < k + bs.length then bs[i - k]?
      else d[i]? := by
  have htk : (d.take k).length = k := by
    simp only [List.length_take]
    omega
  rw [List.append_assoc]
  by_cases h1 : i < k
  · rw [List.getElem?_append_left (by omega : i < (d.take k).length),
        List.getElem?_take_of_lt h1, if_pos h1]
  · rw [List.getElem?_append_right (by omega : (d.take k).length ≤ i), htk,
        if_neg h1]
    by_cases h2 : i < k + bs.length
    · rw [List.getElem?_append_left (by omega : i - k < bs.length), if_pos h2]
    · rw [List.getElem?_append_right (by omega : bs.length ≤ i - k),
          List.getElem?_drop, if_neg h2]
      congr 1
      omega

theorem Query_mem_eq (wenv : WasmEnv) (p : PGLite) (sql : String) :
    (Query wenv p sql).p.mem = (p.mem.write 1 (utf8Bytes sql ++ [0])).2 := rfl

theorem Query_trace_eq (wenv : WasmEnv) (p : PGLite) (sql : String) :
    (Query wenv p sql).trace =
      [.memWrite 1 (utf8Bytes sql ++ [0])
        ((p.mem.write 1 (utf8Bytes sql ++ [0])).1),
       .call "interactive_one"] := rfl

theorem Query_result_eq (wenv : WasmEnv) (p : PGLite) (sql : String) :
    (Query wenv p sql).result =
      match wenv.callRes p.nCalls "interactive_one" with
      | .error e => some e
      | .ok _ => none := rfl

/-- C8: `Query` returns a non-nil error exactly when the `interactive_one`
call fails — the boolean success flag of the memory write is discarded —
and when the SQL bytes plus terminator do not fit in the module's memory at
the write offset, the write silently leaves the memory unchanged while
`interactive_one` is still invoked and no error is reported for the failed
write. -/
theorem spec_c8 (wenv : WasmEnv) (p : PGLite) (sql : String) :
    ((Query wenv p sql).result = none ↔
      ∃ v, wenv.callRes p.nCalls "interactive_one" = .ok v) ∧
    (∀ e, (Query wenv p sql).result = some e ↔
      wenv.callRes p.nCalls "interactive_one" = .error e) ∧
    (p.mem.data.length < (utf8Bytes sql).length + 2 →
      (Query wenv p sql).p.mem = p.mem ∧
      (Query wenv p sql).trace =
        [.memWrite 1 (utf8Bytes sql ++ [0]) false,
         .call "interactive_one"]) := by
  have hnofit : p.mem.data.length < (utf8Bytes sql).length + 2 →
      p.mem.write 1 (utf8Bytes sql ++ [0]) = (false, p.mem) := fun h =>
    Mem.write_nofit (by simp only [List.length_append, List.length_cons,
      List.length_nil]; omega)
  refine ⟨?_, ?_, ?_⟩
  · rw [Query_result_eq]
    cases hc : wenv.callRes p.nCalls "interactive_one" <;> simp
  · intro e
    rw [Query_result_eq]
    cases hc : wenv.callRes p.nCalls "interactive_one" <;> simp
  · intro h
    constructor
    · rw [Query_mem_eq, hnofit h]
    · rw [Query_trace_eq, hnofit h]

/-- C8 witness: on a module with empty memory, `Query "ab"` reports no
error (the call succeeded), leaves the memory untouched, and records the
failed write before the `interactive_one` call. -/
theorem spec_c8_witness :
    (Query wenvOk ⟨⟨[]⟩, 0⟩ "ab").result = none ∧
    (Query wenvOk ⟨⟨[]⟩, 0⟩ "ab").p.mem = ⟨[]⟩ ∧
    (Query wenvOk ⟨⟨[]⟩, 0⟩ "ab").trace =
      [.memWrite 1 [97, 98, 0] false, .call "interactive_one"] := by
  obtain ⟨h1, _, h3⟩ := spec_c8 wenvOk ⟨⟨[]⟩, 0⟩ "ab"
  obtain ⟨h3a, h3b⟩ := h3 (by decide)
  exact ⟨h1.mpr ⟨[], rfl⟩, h3a, by rw [h3b]; decide⟩

/-- C9: the fixed write offset of `Query` is exactly 1, not 0 — every
memory-write event in its trace has offset 1 — the byte at offset 0 is
always left unchanged, every byte beyond offset `len(sql)+1` is left
unchanged, and (when the bytes fit) offsets 1 through `len(sql)+1` receive
the SQL bytes followed by the terminating zero. -/
theorem spec_c9 (wenv : WasmEnv) (p : PGLite) (sql : String) :
    (Query wenv p sql).p.mem.data[0]? = p.mem.data[0]? ∧
    (∀ i, (utf8Bytes sql).length + 1 < i →
      (Query wenv p sql).p.mem.data[i]? = p.mem.data[i]?) ∧
    ((utf8Bytes sql).length + 2 ≤ p.mem.data.length →
      ∀ i, 1 ≤ i → i ≤ (utf8Bytes sql).length + 1 →
        (Query wenv p sql).p.mem.data[i]? = (utf8Bytes sql ++ [0])[i - 1]?) ∧
    (∀ off bs okf, Event.memWrite off bs okf ∈ (Query wenv p sql).trace →
      off = 1) := by
  have hlen : (utf8Bytes sql ++ [0]).length = (utf8Bytes sql).length + 1 := by
    simp
  by_cases hfit : 1 + (utf8Bytes sql ++ [0]).length ≤ p.mem.data.length
  · have hd : (Query wenv p sql).p.mem.data =
        p.mem.data.take 1 ++ (utf8Bytes sql ++ [0]) ++
          p.mem.data.drop (1 + (utf8Bytes sql ++ [0]).length) := by
      rw [Query_mem_eq, Mem.write_fits hfit]
    refine ⟨?_, ?_, ?_, ?_⟩
    · rw [hd, write_index _ _ _ _ hfit]
      simp
    · intro i hi
      rw [hd, write_index _ _ _ _ hfit, if_neg (by omega),
          if_neg (by rw [hlen]; omega)]
    · intro _ i hi1 hi2
      rw [hd, write_index _ _ _ _ hfit, if_neg (by omega),
          if_pos (by rw [hlen]; omega)]
    · intro off bs okf hmem
      rw [Query_trace_eq] at hmem
      cases hmem with
      | head => rfl
      | tail _ h2 =>
        cases h2 with
        | tail _ h3 => cases h3
  · have hd : (Query wenv p sql).p.mem.data = p.mem.data := by
      rw [Query_mem_eq, Mem.write_nofit (by omega)]
    refine ⟨by rw [hd], fun i _ => by rw [hd], fun hc => ?_, ?_⟩
    · exact absurd hc (by rw [hlen] at hfit; omega)
    · intro off bs okf hmem
      rw [Query_trace_eq] at hmem
      cases hmem with
      | head => rfl
      | tail _ h2 =>
        cases h2 with
        | tail _ h3 => cases h3

/-- C9 witness: on a 5-byte memory, `Query "ab"` leaves bytes 0 and 4
unchanged and puts the first SQL byte at offset 1. -/
theorem spec_c9_witness :
    (Query wenvOk ⟨⟨[5, 5, 5, 5, 5]⟩, 0⟩ "ab").p.mem.data[0]? = some 5 ∧
    (Query wenvOk ⟨⟨[5, 5, 5, 5, 5]⟩, 0⟩ "ab").p.mem.data[1]? = some 97 ∧
    (Query wenvOk ⟨⟨[5, 5, 5, 5, 5]⟩, 0⟩ "ab").p.mem.data[4]? = some 5 := by
  obtain ⟨h1, h2, h3, _⟩ := spec_c9 wenvOk ⟨⟨[5, 5, 5, 5, 5]⟩, 0⟩ "ab"
  refine ⟨by rw [h1]; rfl, ?_, by rw [h2 4 (by decide)]; rfl⟩
  rw [h3 (by decide) 1 (by decide) (by decide)]
  decide

/-- C1 counterexample: on a module whose memory cannot hold the SQL bytes,
`Query "x"` does not write them anywhere — the memory is left empty — yet
`interactive_one` is still invoked, so the claim that the bytes are written
into the module's linear memory before every invocation fails as stated. -/
theorem spec_c1_counterexample :
    (Query wenvOk ⟨⟨[]⟩, 0⟩ "x").trace.get? 1 =
      some (.call "interactive_one") ∧
    (Query wenvOk ⟨⟨[]⟩, 0⟩ "x").p.mem.data = [] := by
  decide

/-- C1 (amended): for every `sql`, `Query sql` issues the memory write of
the UTF-8 bytes of `sql` followed by exactly one terminating zero byte at
the fixed offset, and only after that write event invokes
`interactive_one` — the write event precedes every invocation in the
trace; whenever those bytes fit in the module's memory they are actually
present at the fixed offset when `interactive_one` is invoked. -/
theorem spec_c1 (wenv : WasmEnv) (p : PGLite) (sql : String) :
    (Query wenv p sql).trace =
      [.memWrite 1 (utf8Bytes sql ++ [0])
         ((p.mem.write 1 (utf8Bytes sql ++ [0])).1),
       .call "interactive_one"] ∧
    (∀ j, (Query wenv p sql).trace.get? j = some (.call "interactive_one") →
      ∃ i, i < j ∧ (Query wenv p sql).trace.get? i =
        some (.memWrite 1 (utf8Bytes sql ++ [0])
          ((p.mem.write 1 (utf8Bytes sql ++ [0])).1))) ∧
    ((utf8Bytes sql).length + 2 ≤ p.mem.data.length →
      ∀ i, 1 ≤ i → i ≤ (utf8Bytes sql).length + 1 →
        (Query wenv p sql).p.mem.data[i]? =
          (utf8Bytes sql ++ [0])[i - 1]?) := by
  refine ⟨Query_trace_eq wenv p sql, ?_, ?_⟩
  · intro j hj
    rw [Query_trace_eq] at hj
    match j with
    | 0 => exact absurd hj (by simp)
    | 1 => exact ⟨0, by omega, by rw [Query_trace_eq]; rfl⟩
    | (n + 2) => exact absurd hj (by simp [List.get?])
  · intro hfit i hi1 hi2
    have hfit2 : 1 + (utf8Bytes sql ++ [0]).length ≤ p.mem.data.length := by
      simp only [List.length_append, List.length_cons, List.length_nil]
      omega
    have hd : (Query wenv p sql).p.mem.data =
        p.mem.data.take 1 ++ (utf8Bytes sql ++ [0]) ++
          p.mem.data.drop (1 + (utf8Bytes sql ++ [0]).length) := by
      rw [Query_mem_eq, Mem.write_fits hfit2]
    rw [hd, write_index _ _ _ _ hfit2, if_neg (by omega),
        if_pos (by simp only [List.length_append, List.length_cons,
          List.length_nil]; omega)]

/-- C1 witness: on a module with room, `Query "ok"` records the successful
write of the bytes of "ok" plus the zero terminator before the
`interactive_one` call, and the first SQL byte sits at offset 1. -/
theorem spec_c1_witness :
    (Query wenvOk ⟨⟨[5, 5, 5, 5, 5]⟩, 0⟩ "ok").trace =
      [.memWrite 1 [111, 107, 0] true, .call "interactive_one"] ∧
    (Query wenvOk ⟨⟨[5, 5, 5, 5, 5]⟩, 0⟩ "ok").p.mem.data[1]? = some 111 := by
  obtain ⟨h1, _, h3⟩ := spec_c1 wenvOk ⟨⟨[5, 5, 5, 5, 5]⟩, 0⟩ "ok"
  refine ⟨by rw [h1]; decide, ?_⟩
  rw [h3 (by decide) 1 (by decide) (by decide)]
  decide

theorem runSegs_eq_filter (wenv : WasmEnv) (segs : List String) : ∀ q : PGLite,
    runSegs wenv q segs =
      runListSpec wenv q (segs.filter fun s => !(trimSpace s == "")) := by
  induction segs with
  | nil => intro q; rfl
  | cons seg rest ih =>
    intro q
    by_cases h : trimSpace seg = ""
    · rw [show runSegs wenv q (seg :: rest) = runSegs wenv q rest by
        simp only [runSegs]; rw [if_pos h]]
      rw [show (seg :: rest).filter (fun s => !(trimSpace s == "")) =
          rest.filter (fun s => !(trimSpace s == "")) by
        simp [List.filter_cons, h]]
      exact ih q
    · rw [show (seg :: rest).filter (fun s => !(trimSpace s == "")) =
          seg :: rest.filter (fun s => !(trimSpace s == "")) by
        simp [List.filter_cons, h]]
      simp only [runSegs, runListSpec]
      rw [if_neg h]
      cases hq : Query wenv q seg with
      | mk res q1 tr =>
        cases res with
        | some e => rfl
        | none => simp only [ih]

/-- C5: `RunQueries` splits its input on the two-newline separator and, for
exactly the segments whose whitespace-trimmed form is non-empty, submits
each such segment unmodified through one `Query` call, in input order,
stopping at (and returning the error of) the first failing `Query` and
returning nil when every submitted segment succeeds — it behaves exactly as
the sequential runner `runListSpec` on the filtered segment list. -/
theorem spec_c5 (wenv : WasmEnv) (q : PGLite) (input : String) :
    RunQueries wenv q input =
      runListSpec wenv q
        ((splitNN input.data []).filter fun s => !(trimSpace s == "")) :=
  runSegs_eq_filter wenv (splitNN input.data []) q

/-- C5 witness: a concrete input with an all-whitespace segment skipped and
both remaining segments submitted in order. -/
theorem spec_c5_witness :
    RunQueries wenvOk ⟨⟨List.replicate 8 0⟩, 0⟩ "a\n\n \n\nb" =
      runListSpec wenvOk ⟨⟨List.replicate 8 0⟩, 0⟩ ["a", "b"] ∧
    (RunQueries wenvOk ⟨⟨List.replicate 8 0⟩, 0⟩ "a\n\n \n\nb").trace =
      [.memWrite 1 [97, 0] true, .call "interactive_one",
       .memWrite 1 [98, 0] true, .call "interactive_one"] := by
  have h := spec_c5 wenvOk ⟨⟨List.replicate 8 0⟩, 0⟩ "a\n\n \n\nb"
  exact ⟨by rw [h]; rfl, by rw [h]; decide⟩
